import Mathlib

/-!
Verification of the scroll-popup engine of this repository
(`src/app/scroll-popup/scroll-popup.service.ts`).

The development shallowly embeds the service's pure algorithmic content:

* the date-label parser `extractMonthYearFromText` (strings are modelled as
  `List Char`; the anchored regex `^(\d{4})-(\d{2})-\d{2}$` is modelled by an
  exact structural match);
* the visible-row locator `binarySearchVisibleRow` (rows are identified by
  their top offsets relative to the wrapper top; the function returns the
  index of the located row);
* the scrollbar position estimator `updatePosition` (JS numbers are modelled
  by `ℚ`, which is exact for every arithmetic operation the code performs);
* the label recomputation `updateMonthYear` and `setInitialDate` acting on
  the popup state;
* the show/hide lifecycle and throttle logic of `handleScroll`,
  `scheduleHidePopup`/the hide-timer callback, modelled as a step machine
  over explicit `Nat` timestamps with event traces.
-/

/- ### Date Label Parser (`extractMonthYearFromText`, lines 59-62, 310-323) -/

/-- Numeric value of a decimal digit character, as computed by
`parseInt` on a digit: code point minus the code point of `0`. -/
def digitVal (c : Char) : Nat := c.toNat - '0'.toNat

/-- The month abbreviation table of the service (index 0 is an unused
sentinel; months are 1-12). -/
def months : List String :=
  ["", "Jan", "Feb", "Mar", "Apr", "May", "Jun", "Jul", "Aug", "Sep", "Oct", "Nov", "Dec"]

/-- Model of `dateRegex = /^(\d{4})-(\d{2})-\d{2}$/` applied with `exec`:
the whole string must be exactly four digits, a dash, two digits, a dash and
two digits; on success the two capture groups (year digits, month digits)
are returned. -/
def dateRegexMatch (s : List Char) : Option (List Char × List Char) :=
  match s with
  | [y1, y2, y3, y4, s1, m1, m2, s2, d1, d2] =>
    if s1 == '-' && s2 == '-' && ([y1, y2, y3, y4, m1, m2, d1, d2].all Char.isDigit)
    then some ([y1, y2, y3, y4], [m1, m2])
    else none
  | _ => none

/-- `extractMonthYearFromText` (service lines 310-323): run the anchored
regex; on a match, parse the month capture with `parseInt(-, 10)` and,
when the month is between 1 and 12, produce `"{months[monthNum]} {year}"`;
otherwise return `null` (`none`). -/
def extractMonthYearFromText (dateText : List Char) : Option String :=
  match dateRegexMatch dateText with
  | none => none
  | some (y, m) =>
    let monthNum := digitVal (m.getD 0 '0') * 10 + digitVal (m.getD 1 '0')
    if 1 ≤ monthNum ∧ monthNum ≤ 12 then
      some (months.getD monthNum "" ++ " " ++ String.mk y)
    else none

/-- The canonical full-string shape accepted by the anchored regex:
exactly `DDDD-DD-DD` with `D` a decimal digit.  Used to state that every
deviating string is rejected. -/
def canonicalShape (s : List Char) : Prop :=
  ∃ y1 y2 y3 y4 m1 m2 d1 d2 : Char,
    s = [y1, y2, y3, y4, '-', m1, m2, '-', d1, d2] ∧
    [y1, y2, y3, y4, m1, m2, d1, d2].all Char.isDigit = true

/- ### Visible-Row Locator (`binarySearchVisibleRow`, lines 234-284) -/

/-- The loop of `binarySearchVisibleRow`.  `offsets` are the rows' top
offsets relative to the wrapper top (`rowRect.top - wrapperRect.top`);
`left`/`right` are the JS loop variables (integers, `right` starts at
`rows.length - 1`, hence `Int`), `result` the best candidate so far
(as a row index).  `fuel` bounds the iteration count; the range shrinks
strictly each step, so `offsets.length + 1` units of fuel always suffice. -/
def bsGo (offsets : List Int) : Nat → Int → Int → Option Nat → Option Nat
  | 0, _, _, result => result
  | fuel + 1, left, right, result =>
    if left ≤ right then
      let mid := (left + right) / 2
      if 0 ≤ offsets.getD mid.toNat 0 then
        bsGo offsets fuel left (mid - 1) (some mid.toNat)
      else
        bsGo offsets fuel (mid + 1) right result
    else
      result

/-- `binarySearchVisibleRow` (service lines 234-284): binary search for the
first row whose offset relative to the wrapper top is at least `0`.
Returns the row's index, or `none` when every row lies above the edge
(or there are no rows). -/
def binarySearchVisibleRow (offsets : List Int) : Option Nat :=
  bsGo offsets (offsets.length + 1) 0 ((offsets.length : Int) - 1) none

/- ### Scrollbar Position Estimator (`updatePosition`, lines 341-380) -/

/-- The inputs read by `updatePosition`: the wrapper's scroll metrics
(`scrollTop`, `scrollHeight`, `clientHeight`), the two configurable
scrollbar constants (defaults 17 and 20), the wrapper's bounding rectangle
(`top`, `right`) and `window.innerHeight`.  JS numbers are modelled by `ℚ`. -/
structure PositionInputs where
  scrollTop : ℚ
  scrollHeight : ℚ
  containerHeight : ℚ
  scrollbarButtonHeight : ℚ
  minScrollbarThumbPx : ℚ
  wrapperTop : ℚ
  wrapperRight : ℚ
  windowInnerHeight : ℚ
deriving DecidableEq

/-- `popupHeight` local constant of `updatePosition`. -/
def popupHeight : ℚ := 40

/-- `availableTrackHeight = Math.max(containerHeight - totalButtonHeight, 1)`
with `totalButtonHeight = scrollbarButtonHeight * 2`. -/
def availableTrackHeight (i : PositionInputs) : ℚ :=
  max (i.containerHeight - i.scrollbarButtonHeight * 2) 1

/-- `scrollRatio = scrollTop / Math.max(scrollHeight - containerHeight, 1)`. -/
def scrollRatioOf (i : PositionInputs) : ℚ :=
  i.scrollTop / max (i.scrollHeight - i.containerHeight) 1

/-- `approxThumbHeight = Math.max((containerHeight / Math.max(scrollHeight, 1))
* availableTrackHeight, minScrollbarThumbPx)`. -/
def approxThumbHeight (i : PositionInputs) : ℚ :=
  max ((i.containerHeight / max i.scrollHeight 1) * availableTrackHeight i)
    i.minScrollbarThumbPx

/-- `thumbTravelHeight = Math.max(availableTrackHeight - approxThumbHeight, 1)`. -/
def thumbTravelHeight (i : PositionInputs) : ℚ :=
  max (availableTrackHeight i - approxThumbHeight i) 1

/-- `thumbTop = scrollbarButtonHeight + scrollRatio * thumbTravelHeight`. -/
def thumbTop (i : PositionInputs) : ℚ :=
  i.scrollbarButtonHeight + scrollRatioOf i * thumbTravelHeight i

/-- `thumbCenter = thumbTop + approxThumbHeight / 2`. -/
def thumbCenter (i : PositionInputs) : ℚ :=
  thumbTop i + approxThumbHeight i / 2

/-- The unclamped vertical popup position
`top = wrapperRect.top + thumbCenter - popupHeight / 2`. -/
def rawTop (i : PositionInputs) : ℚ :=
  i.wrapperTop + thumbCenter i - popupHeight / 2

/-- The `top` value stored by `updatePosition` after its two boundary
checks: `if (top + popupHeight > window.innerHeight) top =
window.innerHeight - popupHeight - 20; if (top < 20) top = 20;`. -/
def updatePositionTop (i : PositionInputs) : ℚ :=
  let top := rawTop i
  let top := if i.windowInnerHeight < top + popupHeight
             then i.windowInnerHeight - popupHeight - 20
             else top
  if top < 20 then 20 else top

/-- The `left` value stored by `updatePosition`:
`left = wrapperRect.right + 10`. -/
def updatePositionLeft (i : PositionInputs) : ℚ :=
  i.wrapperRight + 10

/- ### Label computation state (`updateMonthYear`, `setInitialDate`) -/

/-- A table row as seen by the service: its cached top offset relative to
the wrapper top, and the date text obtained from the 5th cell
(`data-date` attribute, else trimmed `textContent`; `none` when the cell
is missing or yields no text). -/
structure RowData where
  offset : Int
  dateText : Option (List Char)
deriving DecidableEq

instance : Inhabited RowData := ⟨⟨0, none⟩⟩

/-- `extractMonthYearFromRow` (lines 290-305) after resolving the DOM
reads into `RowData.dateText`: `null` text yields `null`, otherwise the
text is parsed by `extractMonthYearFromText`. -/
def extractMonthYearFromRow (r : RowData) : Option String :=
  match r.dateText with
  | none => none
  | some t => extractMonthYearFromText t

/-- The label stored by `updateMonthYear` (lines 183-209).  `ready`
abstracts `isInitialized && tableWrapper && tableBody`; `rows` is the
(already refreshed) cached row array.  On every failure path the label is
set to the empty string; when the located row's date parses, the parsed
label is stored. -/
def updateMonthYearLabel (ready : Bool) (rows : List RowData) : String :=
  if ready = false then ""
  else if rows.length = 0 then ""
  else
    match binarySearchVisibleRow (rows.map RowData.offset) with
    | none => ""
    | some i =>
      match extractMonthYearFromRow (rows.getD i default) with
      | some m => m
      | none => ""

/-- The externally observable popup state (the four signals). -/
structure PopupState where
  isVisible : Bool
  monthYear : String
  top : ℚ
  left : ℚ
deriving DecidableEq

/-- `setInitialDate` (lines 329-334): parse the given text and store the
label only when parsing succeeds; otherwise the state is left untouched. -/
def setInitialDate (st : PopupState) (dateText : List Char) : PopupState :=
  match extractMonthYearFromText dateText with
  | some m => { st with monthYear := m }
  | none => st

/- ### Visibility lifecycle and throttle (`handleScroll`, `showPopup`,
`scheduleHidePopup`, lines 118-166, 139-149) -/

/-- `hideDelay = 1200` milliseconds. -/
def hideDelay : Nat := 1200

/-- `monthUpdateThrottle = 50` milliseconds. -/
def monthUpdateThrottle : Nat := 50

/-- The mutable lifecycle state of the service relevant to timing:
the visibility signal, the two timestamps, and the pending hide timer
(`scrollTimeout`), modelled by its scheduled firing time. -/
structure SvcState where
  isVisible : Bool
  lastScrollTime : Nat
  lastMonthUpdateTime : Nat
  pendingHideAt : Option Nat
deriving DecidableEq

/-- The state at construction: hidden, both timestamps `0`, no timer. -/
def initState : SvcState :=
  { isVisible := false, lastScrollTime := 0, lastMonthUpdateTime := 0,
    pendingHideAt := none }

/-- `showPopup` (lines 155-166) restricted to its state effects: set the
visibility signal, then recompute the label if the throttle interval has
elapsed (the position update touches no lifecycle state).  The returned
flag records whether `updateMonthYear` ran. -/
def showPopupStep (s : SvcState) (now : Nat) : SvcState × Bool :=
  let s1 := { s with isVisible := true }
  if monthUpdateThrottle ≤ now - s1.lastMonthUpdateTime then
    ({ s1 with lastMonthUpdateTime := now }, true)
  else
    (s1, false)

/-- `handleScroll` (lines 118-133): record the activity timestamp, run
`showPopup`, run the handler's own throttle check, then
`scheduleHidePopup` (cancel the pending timer and arm a new one for
`now + hideDelay`).  All `Date.now()` reads within the synchronous
handler observe the same instant `now`.  The flag records whether
`updateMonthYear` ran during this event. -/
def handleScroll (s : SvcState) (now : Nat) : SvcState × Bool :=
  let s1 := { s with lastScrollTime := now }
  let r1 := showPopupStep s1 now
  let r2 := if monthUpdateThrottle ≤ now - r1.1.lastMonthUpdateTime then
              ({ r1.1 with lastMonthUpdateTime := now }, true)
            else
              (r1.1, false)
  ({ r2.1 with pendingHideAt := some (now + hideDelay) }, r1.2 || r2.2)

/-- The hide-timer callback (lines 144-148) firing at instant `now`: the
timer is consumed, and the popup is hidden only when
`Date.now() - lastScrollTime >= hideDelay`. -/
def fireStep (s : SvcState) (now : Nat) : SvcState :=
  let s1 := { s with pendingHideAt := none }
  if hideDelay ≤ now - s1.lastScrollTime then { s1 with isVisible := false }
  else s1

/-- An observable event: a scroll-activity signal, or the pending hide
timer firing, each carrying its `Date.now()` timestamp. -/
inductive Ev where
  | scroll (t : Nat)
  | fire (t : Nat)
deriving DecidableEq

/-- The timestamp of an event. -/
def Ev.time : Ev → Nat
  | .scroll t => t
  | .fire t => t

/-- One event step: a scroll runs `handleScroll`, a timer firing runs the
hide callback (which never recomputes the label). -/
def stepEv (s : SvcState) : Ev → SvcState × Bool
  | .scroll t => handleScroll s t
  | .fire t => (fireStep s t, false)

/-- Run a trace of events from a state. -/
def runTrace (s : SvcState) : List Ev → SvcState
  | [] => s
  | e :: es => runTrace (stepEv s e).1 es

/-- The timestamps at which `updateMonthYear` runs along a trace. -/
def recomputes (s : SvcState) : List Ev → List Nat
  | [] => []
  | e :: es =>
    let p := stepEv s e
    if p.2 then e.time :: recomputes p.1 es else recomputes p.1 es

/-- Trace validity from state `s` at current clock `t`: timestamps are
non-decreasing, and a timer may fire only when it is pending and its
scheduled instant has been reached (`scheduleHidePopup` always cancels
the previous timer, so at most one timer is ever pending). -/
def validB (s : SvcState) (t : Nat) : List Ev → Bool
  | [] => true
  | .scroll ts :: es => decide (t ≤ ts) && validB (handleScroll s ts).1 ts es
  | .fire tf :: es =>
    decide (t ≤ tf) &&
    (match s.pendingHideAt with
     | some t0 => decide (t0 ≤ tf)
     | none => false) &&
    validB (fireStep s tf) tf es

/-- The clock value after a trace: the last event's timestamp, or the
starting clock for the empty trace. -/
def endTime (t : Nat) : List Ev → Nat
  | [] => t
  | e :: es => endTime e.time es

/-- The timing invariant of reachable states at clock `t`: the last label
recompute is no later than the last scroll, nothing is later than the
clock, and a hidden popup means either that no activity has occurred yet
or that at least `hideDelay` has elapsed since the last recompute. -/
def TimingInv (s : SvcState) (t : Nat) : Prop :=
  s.lastMonthUpdateTime ≤ s.lastScrollTime ∧ s.lastScrollTime ≤ t ∧
  (s.isVisible = false → s.lastMonthUpdateTime + hideDelay ≤ t ∨ s.lastMonthUpdateTime = 0)

/- ### Concrete inputs used by counterexamples and witnesses -/

/-- Estimator input with default scrollbar constants: a 200px-high wrapper
whose content is 400px high, scrolled to the very bottom
(`scrollTop = 200 = scrollHeight - clientHeight`), the wrapper sitting
430.5px below a 600px-high window's top edge. -/
def boundsCexInput : PositionInputs :=
  { scrollTop := 200, scrollHeight := 400, containerHeight := 200,
    scrollbarButtonHeight := 17, minScrollbarThumbPx := 20,
    wrapperTop := 861 / 2, wrapperRight := 1000, windowInnerHeight := 600 }

/-- Estimator input with default scrollbar constants used to refute
monotonicity: the wrapper top sits at 440px in a 600px window; its
`scrollTop` field is varied by the statements below. -/
def monoCexInput : PositionInputs :=
  { scrollTop := 0, scrollHeight := 400, containerHeight := 200,
    scrollbarButtonHeight := 17, minScrollbarThumbPx := 20,
    wrapperTop := 440, wrapperRight := 1000, windowInnerHeight := 600 }

/-- The monotonicity witness input: the monotonicity counterexample's
wrapper moved to the window top edge. -/
def monoWitnessInput : PositionInputs :=
  { monoCexInput with wrapperTop := 0 }

/-- Estimator input with a degenerate (zero) scrollable range:
`scrollHeight = clientHeight = 300`, hence `scrollTop = 0`. -/
def degenerateInput : PositionInputs :=
  { scrollTop := 0, scrollHeight := 300, containerHeight := 300,
    scrollbarButtonHeight := 17, minScrollbarThumbPx := 20,
    wrapperTop := 100, wrapperRight := 1000, windowInnerHeight := 600 }

/- ## Proofs -/

/- ### Visible-Row Locator (C1) -/

/-- When the search range is exhausted (`right < left`) the loop's
accumulated candidate is the answer; under the loop invariant it is the
leftmost index whose offset is at or below the reference edge. -/
theorem bsGo_exit (offsets : List Int) (left right : Int) (result : Option Nat)
    (hlr : right < left)
    (hpre : ∀ j : Nat, (j : Int) < left → j < offsets.length →
      offsets.getD j 0 < 0)
    (hres : ∀ r : Nat, result = some r →
      (r : Int) = right + 1 ∧ r < offsets.length ∧ 0 ≤ offsets.getD r 0)
    (hnone : result = none → right = (offsets.length : Int) - 1) :
    (result = none →
      ∀ j : Nat, j < offsets.length → offsets.getD j 0 < 0) ∧
    (∀ r : Nat, result = some r →
      r < offsets.length ∧ 0 ≤ offsets.getD r 0 ∧
      ∀ j : Nat, j < r → offsets.getD j 0 < 0) := by
  constructor
  · intro h j hj
    have hr := hnone h
    exact hpre j (by omega) hj
  · intro r hr
    obtain ⟨h1, h2, h3⟩ := hres r hr
    exact ⟨h2, h3, fun j hj => hpre j (by omega) (by omega)⟩

/-- Loop invariant of `bsGo`: starting from a state in which every index
left of `left` has a negative offset and the candidate (when present) is
the index `right + 1` with a non-negative offset, the loop returns `none`
exactly when no offset is non-negative, and otherwise the leftmost index
with a non-negative offset.  `fuel` must exceed the size of the remaining
range. -/
theorem bsGo_correct (offsets : List Int)
    (mono : ∀ k : Nat, k < offsets.length → ∀ j : Nat, j ≤ k →
      offsets.getD j 0 ≤ offsets.getD k 0) :
    ∀ (fuel : Nat) (left right : Int) (result : Option Nat),
      0 ≤ left → right < (offsets.length : Int) → right - left < (fuel : Int) →
      (∀ j : Nat, (j : Int) < left → j < offsets.length →
        offsets.getD j 0 < 0) →
      (∀ r : Nat, result = some r →
        (r : Int) = right + 1 ∧ r < offsets.length ∧ 0 ≤ offsets.getD r 0) →
      (result = none → right = (offsets.length : Int) - 1) →
      (bsGo offsets fuel left right result = none →
        ∀ j : Nat, j < offsets.length → offsets.getD j 0 < 0) ∧
      (∀ r : Nat, bsGo offsets fuel left right result = some r →
        r < offsets.length ∧ 0 ≤ offsets.getD r 0 ∧
        ∀ j : Nat, j < r → offsets.getD j 0 < 0) := by
  intro fuel
  induction fuel with
  | zero =>
    intro left right result h0 hlen hfuel hpre hres hnone
    have hlr : right < left := by omega
    simpa [bsGo] using bsGo_exit offsets left right result hlr hpre hres hnone
  | succ fuel ih =>
    intro left right result h0 hlen hfuel hpre hres hnone
    by_cases hlr : left ≤ right
    · have hmid1 : left ≤ (left + right) / 2 := by omega
      have hmid2 : (left + right) / 2 ≤ right := by omega
      have htn : (((left + right) / 2).toNat : Int) = (left + right) / 2 := by
        omega
      have htlen : ((left + right) / 2).toNat < offsets.length := by omega
      by_cases hoff : 0 ≤ offsets.getD ((left + right) / 2).toNat 0
      · have heq : bsGo offsets (fuel + 1) left right result =
            bsGo offsets fuel left ((left + right) / 2 - 1)
              (some ((left + right) / 2).toNat) := by
          simp only [bsGo, hlr, hoff, if_true, ite_true]
        rw [heq]
        refine ih left ((left + right) / 2 - 1) _ h0 (by omega) (by omega)
          hpre ?_ ?_
        · intro r hr
          injection hr with hr
          subst hr
          exact ⟨by omega, htlen, hoff⟩
        · intro h
          simp at h
      · have heq : bsGo offsets (fuel + 1) left right result =
            bsGo offsets fuel ((left + right) / 2 + 1) right result := by
          simp only [bsGo, hlr, hoff, if_true, ite_true, if_false, ite_false]
        rw [heq]
        have hmneg : offsets.getD ((left + right) / 2).toNat 0 < 0 := by omega
        refine ih ((left + right) / 2 + 1) right result (by omega) hlen
          (by omega) ?_ hres hnone
        intro j hj hjlen
        have hj2 : j ≤ ((left + right) / 2).toNat := by omega
        exact lt_of_le_of_lt (mono _ htlen j hj2) hmneg
    · have hlr2 : right < left := by omega
      have heq : bsGo offsets (fuel + 1) left right result = result := by
        simp [bsGo, hlr]
      rw [heq]
      exact bsGo_exit offsets left right result hlr2 hpre hres hnone

/-- C1.  Visible-Row Locator correctness: for every row sequence whose
offsets (relative to the wrapper top) are non-decreasing,
`binarySearchVisibleRow` returns `none` exactly when no row's offset is at
or past the reference edge `0` (in particular for the empty sequence), and
otherwise returns precisely the leftmost row index whose offset is `≥ 0`;
on offsets `[-50, 0, 50]` it returns index `1`. -/
theorem binarySearchVisibleRow_correct :
    (∀ offsets : List Int,
      (∀ k : Nat, k < offsets.length → ∀ j : Nat, j ≤ k →
        offsets.getD j 0 ≤ offsets.getD k 0) →
      ((binarySearchVisibleRow offsets = none ↔
          ∀ j : Nat, j < offsets.length → offsets.getD j 0 < 0) ∧
       (∀ i : Nat, binarySearchVisibleRow offsets = some i ↔
          (i < offsets.length ∧ 0 ≤ offsets.getD i 0 ∧
           ∀ j : Nat, j < i → offsets.getD j 0 < 0)))) ∧
    binarySearchVisibleRow [-50, 0, 50] = some 1 := by
  constructor
  · intro offsets mono
    have H := bsGo_correct offsets mono (offsets.length + 1) 0
      ((offsets.length : Int) - 1) none (le_refl 0) (by omega) (by omega)
      (by intro j hj; omega) (by intro r hr; simp at hr) (fun _ => rfl)
    rw [show bsGo offsets (offsets.length + 1) 0 ((offsets.length : Int) - 1)
        none = binarySearchVisibleRow offsets from rfl] at H
    obtain ⟨Hnone, Hsome⟩ := H
    constructor
    · constructor
      · exact Hnone
      · intro hall
        cases h : binarySearchVisibleRow offsets with
        | none => rfl
        | some r =>
          obtain ⟨hr1, hr2, _⟩ := Hsome r h
          exact absurd hr2 (not_le.mpr (hall r hr1))
    · intro i
      constructor
      · exact Hsome i
      · rintro ⟨hi, hoi, hprev⟩
        cases h : binarySearchVisibleRow offsets with
        | none => exact absurd hoi (not_le.mpr (Hnone h i hi))
        | some r =>
          obtain ⟨hr1, hr2, hr3⟩ := Hsome r h
          rcases lt_trichotomy i r with hir | hir | hir
          · exact absurd hoi (not_le.mpr (hr3 i hir))
          · rw [hir]
          · exact absurd hr2 (not_le.mpr (hprev r hir))
  · decide

/-- Witness for `binarySearchVisibleRow_correct`: instantiated on the
boundary sequence `[-50, 0, 50]`, index `1`, with the monotonicity
hypothesis discharged by evaluation. -/
theorem binarySearchVisibleRow_correct_witness :
    binarySearchVisibleRow [-50, 0, 50] = some 1 ↔
      (1 < ([-50, 0, 50] : List Int).length ∧
       0 ≤ ([-50, 0, 50] : List Int).getD 1 0 ∧
       ∀ j : Nat, j < 1 → ([-50, 0, 50] : List Int).getD j 0 < 0) :=
  (binarySearchVisibleRow_correct.1 [-50, 0, 50] (by decide)).2 1

/- ### Date Label Parser (C2, C9) -/

/-- Inversion: a successful regex match forces the canonical
`DDDD-DD-DD` shape. -/
theorem dateRegexMatch_shape (s : List Char) (p : List Char × List Char)
    (h : dateRegexMatch s = some p) : canonicalShape s := by
  unfold dateRegexMatch at h
  split at h
  · split at h
    · rename_i y1 y2 y3 y4 s1 m1 m2 s2 d1 d2 hc
      simp only [Bool.and_eq_true, beq_iff_eq] at hc
      obtain ⟨⟨hs1, hs2⟩, hall⟩ := hc
      subst hs1
      subst hs2
      exact ⟨y1, y2, y3, y4, m1, m2, d1, d2, rfl, hall⟩
    · simp at h
  · simp at h

/-- Evaluation of the parser on a canonical-shaped input: the result is
the month/year label when the parsed month lies in `1..12`, `none`
otherwise. -/
theorem extract_canonical_eq (y1 y2 y3 y4 m1 m2 d1 d2 : Char)
    (hall : [y1, y2, y3, y4, m1, m2, d1, d2].all Char.isDigit = true) :
    extractMonthYearFromText [y1, y2, y3, y4, '-', m1, m2, '-', d1, d2] =
      (if 1 ≤ digitVal m1 * 10 + digitVal m2 ∧
          digitVal m1 * 10 + digitVal m2 ≤ 12
       then some (months.getD (digitVal m1 * 10 + digitVal m2) "" ++ " " ++
         String.mk [y1, y2, y3, y4])
       else none) := by
  unfold extractMonthYearFromText dateRegexMatch
  simp [hall]

/-- C2.  Date Label Parser correctness: every string of the exact
canonical form `YYYY-MM-DD` (four digit characters, dash, two digit
characters, dash, two digit characters) parses to
`"{months[month]} {year}"` when the month is between 1 and 12 and to
`none` when the month is out of range; every string deviating from the
canonical shape (field widths, separators, extra characters) yields
`none`, never a partial match. -/
theorem extractMonthYear_correct :
    (∀ y1 y2 y3 y4 m1 m2 d1 d2 : Char,
      [y1, y2, y3, y4, m1, m2, d1, d2].all Char.isDigit = true →
      ((1 ≤ digitVal m1 * 10 + digitVal m2 ∧
          digitVal m1 * 10 + digitVal m2 ≤ 12 →
         extractMonthYearFromText [y1, y2, y3, y4, '-', m1, m2, '-', d1, d2] =
           some (months.getD (digitVal m1 * 10 + digitVal m2) "" ++ " " ++
             String.mk [y1, y2, y3, y4])) ∧
       (¬(1 ≤ digitVal m1 * 10 + digitVal m2 ∧
           digitVal m1 * 10 + digitVal m2 ≤ 12) →
         extractMonthYearFromText [y1, y2, y3, y4, '-', m1, m2, '-', d1, d2] =
           none))) ∧
    (∀ s : List Char, ¬ canonicalShape s →
      extractMonthYearFromText s = none) := by
  constructor
  · intro y1 y2 y3 y4 m1 m2 d1 d2 hall
    constructor
    · intro hm
      rw [extract_canonical_eq y1 y2 y3 y4 m1 m2 d1 d2 hall, if_pos hm]
    · intro hm
      rw [extract_canonical_eq y1 y2 y3 y4 m1 m2 d1 d2 hall, if_neg hm]
  · intro s hs
    cases hm : dateRegexMatch s with
    | none => simp [extractMonthYearFromText, hm]
    | some p => exact absurd (dateRegexMatch_shape s p hm) hs

/-- Witness for `extractMonthYear_correct`: "2024-02-05" parses to
"Feb 2024" and "2024-13-01" (month 13) is rejected. -/
theorem extractMonthYear_correct_witness :
    extractMonthYearFromText ['2', '0', '2', '4', '-', '0', '2', '-', '0', '5'] =
      some (months.getD (digitVal '0' * 10 + digitVal '2') "" ++ " " ++
        String.mk ['2', '0', '2', '4']) ∧
    extractMonthYearFromText ['2', '0', '2', '4', '-', '1', '3', '-', '0', '1'] =
      none :=
  ⟨(extractMonthYear_correct.1 '2' '0' '2' '4' '0' '2' '0' '5'
      (by decide)).1 (by decide),
   (extractMonthYear_correct.1 '2' '0' '2' '4' '1' '3' '0' '1'
      (by decide)).2 (by decide)⟩

/-- C9.  The day field is not validated: for any digit characters in the
day position — including "00" and "32".."99" — a canonical-shaped string
with month in `1..12` parses to the month/year label, the day digits
having no influence; in particular "2024-02-99" and "2024-02-00" both
parse to "Feb 2024". -/
theorem dayFieldUnvalidated :
    (∀ y1 y2 y3 y4 m1 m2 d1 d2 : Char,
      [y1, y2, y3, y4, m1, m2, d1, d2].all Char.isDigit = true →
      1 ≤ digitVal m1 * 10 + digitVal m2 →
      digitVal m1 * 10 + digitVal m2 ≤ 12 →
      extractMonthYearFromText [y1, y2, y3, y4, '-', m1, m2, '-', d1, d2] =
        some (months.getD (digitVal m1 * 10 + digitVal m2) "" ++ " " ++
          String.mk [y1, y2, y3, y4])) ∧
    extractMonthYearFromText (String.toList "2024-02-99") = some "Feb 2024" ∧
    extractMonthYearFromText (String.toList "2024-02-00") = some "Feb 2024" := by
  refine ⟨?_, by decide, by decide⟩
  intro y1 y2 y3 y4 m1 m2 d1 d2 hall h1 h2
  rw [extract_canonical_eq y1 y2 y3 y4 m1 m2 d1 d2 hall, if_pos ⟨h1, h2⟩]

/-- Witness for `dayFieldUnvalidated`: instantiated on "2024-02-99",
whose day field 99 names no real day of February. -/
theorem dayFieldUnvalidated_witness :
    extractMonthYearFromText ['2', '0', '2', '4', '-', '0', '2', '-', '9', '9'] =
      some (months.getD (digitVal '0' * 10 + digitVal '2') "" ++ " " ++
        String.mk ['2', '0', '2', '4']) :=
  dayFieldUnvalidated.1 '2' '0' '2' '4' '0' '2' '9' '9'
    (by decide) (by decide) (by decide)

/- ### Scrollbar Position Estimator (C3, C4, C8) -/

/-- The structure update touching only `scrollTop` leaves every other
computed quantity of the estimator unchanged; `rawTop` is affine in the
scroll ratio. -/
theorem rawTop_scrollTop (i : PositionInputs) (s : ℚ) :
    rawTop { i with scrollTop := s } =
      i.wrapperTop + (i.scrollbarButtonHeight +
        (s / max (i.scrollHeight - i.containerHeight) 1) * thumbTravelHeight i +
        approxThumbHeight i / 2) - popupHeight / 2 := rfl

/-- `rawTop` is non-decreasing in the scroll offset: its scroll-dependent
part is the ratio (positive denominator) times the travel distance
(floored at 1). -/
theorem rawTop_mono (i : PositionInputs) (s1 s2 : ℚ) (h : s1 ≤ s2) :
    rawTop { i with scrollTop := s1 } ≤ rawTop { i with scrollTop := s2 } := by
  rw [rawTop_scrollTop, rawTop_scrollTop]
  have hD : (0:ℚ) < max (i.scrollHeight - i.containerHeight) 1 :=
    lt_of_lt_of_le one_pos (le_max_right _ _)
  have hT : (0:ℚ) ≤ thumbTravelHeight i :=
    le_trans zero_le_one (le_max_right _ _)
  have h2 : s1 / max (i.scrollHeight - i.containerHeight) 1 ≤
      s2 / max (i.scrollHeight - i.containerHeight) 1 :=
    (div_le_div_iff_of_pos_right hD).mpr h
  have h3 := mul_le_mul_of_nonneg_right h2 hT
  linarith

/-- When the unclamped position leaves the popup inside the window bottom
edge, `updatePositionTop` is just the unclamped position floored at the
20px top margin. -/
theorem updatePositionTop_of_fit (i : PositionInputs)
    (hfit : rawTop i + popupHeight ≤ i.windowInnerHeight) :
    updatePositionTop i = max (rawTop i) 20 := by
  unfold updatePositionTop
  dsimp only
  rw [if_neg (not_lt.mpr hfit)]
  rcases le_or_lt 20 (rawTop i) with h | h
  · rw [if_neg (not_lt.mpr h), max_eq_left h]
  · rw [if_pos h]
    exact (max_eq_right h.le).symm

/-- C3 counterexample: with the wrapper fully scrolled
(`scrollTop = scrollHeight - clientHeight`) and the wrapper top at
430.5px in a 600px window, `updatePosition` stores `top = 552`, which
exceeds the claimed upper bound
`windowInnerHeight - popupHeight - 20 = 540`: the code only relocates the
popup when it would cross the window bottom, so unclamped values in
`(540, 560]` pass through. -/
theorem estimatorBounded_cex :
    (0 ≤ boundsCexInput.scrollTop ∧
     boundsCexInput.scrollTop ≤
       boundsCexInput.scrollHeight - boundsCexInput.containerHeight ∧
     boundsCexInput.containerHeight ≤ boundsCexInput.scrollHeight) ∧
    updatePositionTop boundsCexInput = 552 ∧
    ¬ updatePositionTop boundsCexInput ≤
        boundsCexInput.windowInnerHeight - popupHeight - 20 := by
  refine ⟨by norm_num [boundsCexInput], ?_, ?_⟩ <;>
    norm_num [updatePositionTop, rawTop, thumbCenter, thumbTop, scrollRatioOf,
      thumbTravelHeight, approxThumbHeight, availableTrackHeight, popupHeight,
      boundsCexInput, max_def]

/-- C3 amended.  Estimator boundedness, as the code actually clamps: for
every input the stored `top` lies within
`[minMargin, max (screenHeight - indicatorHeight) minMargin]`, i.e. within
`[20, max (windowInnerHeight - 40) 20]` — the popup never starts above the
20px top margin and never crosses the window bottom edge, but it may enter
the bottom 20px margin (the claimed upper bound
`windowInnerHeight - 60` does not hold). -/
theorem updatePositionTop_bounded (i : PositionInputs) :
    20 ≤ updatePositionTop i ∧
    updatePositionTop i ≤ max (i.windowInnerHeight - popupHeight) 20 := by
  simp only [updatePositionTop, popupHeight]
  split_ifs with h1 h2 h3
  · exact ⟨le_refl _, le_max_right _ _⟩
  · exact ⟨by linarith [not_lt.mp h2], le_trans (by linarith) (le_max_left _ _)⟩
  · exact ⟨le_refl _, le_max_right _ _⟩
  · exact ⟨not_lt.mp h3, le_trans (by linarith [not_lt.mp h1]) (le_max_left _ _)⟩

/-- C4 counterexample: with fixed extents (400/200), fixed wrapper top
440 and window height 600, increasing the scroll offset from 150 to 200
(both within `[0, scrollHeight - clientHeight]`) makes the stored `top`
decrease from 540.75 to 540: the bottom-overflow branch relocates the
popup to `windowInnerHeight - 60`, below values the unclamped formula
still produces at smaller offsets. -/
theorem estimatorMonotone_cex :
    ((150:ℚ) ≤ 200 ∧ (0:ℚ) ≤ 150 ∧
      (200:ℚ) ≤ monoCexInput.scrollHeight - monoCexInput.containerHeight) ∧
    updatePositionTop { monoCexInput with scrollTop := 200 } <
      updatePositionTop { monoCexInput with scrollTop := 150 } := by
  refine ⟨by norm_num [monoCexInput], ?_⟩
  norm_num [updatePositionTop, rawTop, thumbCenter, thumbTop, scrollRatioOf,
    thumbTravelHeight, approxThumbHeight, availableTrackHeight, popupHeight,
    monoCexInput, max_def]

/-- C4 amended.  Estimator monotonicity holds on the region where the
bottom-overflow clamp does not fire: for fixed extents, wrapper rectangle,
scrollbar constants and window height, if the larger offset's unclamped
position still fits above the window bottom
(`rawTop + popupHeight ≤ windowInnerHeight`), then the stored `top` is
non-decreasing in the scroll offset. -/
theorem updatePositionTop_mono (i : PositionInputs) (s1 s2 : ℚ)
    (h12 : s1 ≤ s2)
    (hfit : rawTop { i with scrollTop := s2 } + popupHeight ≤
      i.windowInnerHeight) :
    updatePositionTop { i with scrollTop := s1 } ≤
      updatePositionTop { i with scrollTop := s2 } := by
  have hmono := rawTop_mono i s1 s2 h12
  rw [updatePositionTop_of_fit _ (by linarith),
      updatePositionTop_of_fit _ hfit]
  exact max_le_max hmono (le_refl 20)

/-- Witness for `updatePositionTop_mono`: the wrapper of the monotonicity
counterexample moved to the window top (`wrapperTop = 0`), scrolled from
100 to 200, where no clamping occurs. -/
theorem updatePositionTop_mono_witness :
    updatePositionTop { monoWitnessInput with scrollTop := (100:ℚ) } ≤
      updatePositionTop { monoWitnessInput with scrollTop := (200:ℚ) } :=
  updatePositionTop_mono monoWitnessInput 100 200 (by norm_num)
    (by norm_num [rawTop, thumbCenter, thumbTop, scrollRatioOf,
      thumbTravelHeight, approxThumbHeight, availableTrackHeight, popupHeight,
      monoWitnessInput, monoCexInput, max_def])

/-- C8.  Degenerate-metrics safety: every guarded denominator and floor
in `updatePosition` is at least 1 (hence nonzero: no division by a zero
denominator is performed and no NaN can arise in `top` or `left`), the
approximated thumb never shrinks below its configured minimum, and in the
degenerate zero-scrollable-range case (`scrollHeight = clientHeight`
forces `scrollTop = 0`) the scroll ratio is 0 and the thumb rests at the
top of the track — a stable, deterministic estimate. -/
theorem degenerateMetricsSafe (i : PositionInputs) :
    ((1:ℚ) ≤ max (i.scrollHeight - i.containerHeight) 1 ∧
     (1:ℚ) ≤ max i.scrollHeight 1 ∧
     1 ≤ availableTrackHeight i ∧
     1 ≤ thumbTravelHeight i ∧
     i.minScrollbarThumbPx ≤ approxThumbHeight i) ∧
    (i.scrollHeight = i.containerHeight → i.scrollTop = 0 →
      scrollRatioOf i = 0 ∧ thumbTop i = i.scrollbarButtonHeight) := by
  refine ⟨⟨le_max_right _ _, le_max_right _ _, le_max_right _ _,
    le_max_right _ _, le_max_right _ _⟩, ?_⟩
  intro _ hst
  have hr : scrollRatioOf i = 0 := by simp [scrollRatioOf, hst]
  exact ⟨hr, by simp [thumbTop, hr]⟩

/-- Witness for `degenerateMetricsSafe`: instantiated on the
zero-scrollable-range input. -/
theorem degenerateMetricsSafe_witness :
    scrollRatioOf degenerateInput = 0 ∧
    thumbTop degenerateInput = degenerateInput.scrollbarButtonHeight :=
  (degenerateMetricsSafe degenerateInput).2 rfl rfl

/- ### Lifecycle and throttle (C5, C6) -/

/-- Characterization of `handleScroll`: the second throttle check (in the
handler body) can never pass after the first (in `showPopup`), because the
first sets `lastMonthUpdateTime := now` and the handler is synchronous;
so `updateMonthYear` runs during the event exactly when the throttle
interval has elapsed since the previous recompute. -/
theorem handleScroll_eq (s : SvcState) (now : Nat) :
    handleScroll s now =
      if monthUpdateThrottle ≤ now - s.lastMonthUpdateTime then
        ({ isVisible := true, lastScrollTime := now,
           lastMonthUpdateTime := now,
           pendingHideAt := some (now + hideDelay) }, true)
      else
        ({ isVisible := true, lastScrollTime := now,
           lastMonthUpdateTime := s.lastMonthUpdateTime,
           pendingHideAt := some (now + hideDelay) }, false) := by
  have h0 : ¬ monthUpdateThrottle ≤ 0 := by decide
  by_cases h : monthUpdateThrottle ≤ now - s.lastMonthUpdateTime
  · simp [handleScroll, showPopupStep, h, h0]
  · simp [handleScroll, showPopupStep, h]

/-- The hide-timer callback changes visibility exactly according to its
quiet-period guard. -/
theorem fireStep_isVisible (s : SvcState) (tf : Nat) :
    (fireStep s tf).isVisible =
      if hideDelay ≤ tf - s.lastScrollTime then false else s.isVisible := by
  unfold fireStep
  dsimp only
  split_ifs <;> rfl

/-- C6.  Show/hide lifecycle timing: a scroll-activity signal at instant
`now` sets `isVisible` to `true` synchronously and (re)arms the hide
timer for exactly `now + hideDelay`; a timer firing at instant `tf` hides
the popup precisely when `now + hideDelay ≤ tf` — at or after the full
quiet period since the signal, never before — because the callback's
guard compares the elapsed time since the last activity against
`hideDelay` before transitioning. -/
theorem showHideLifecycleTiming (s : SvcState) (now tf : Nat) :
    (handleScroll s now).1.isVisible = true ∧
    (handleScroll s now).1.pendingHideAt = some (now + hideDelay) ∧
    ((fireStep (handleScroll s now).1 tf).isVisible = false ↔
      now + hideDelay ≤ tf) := by
  have hs : (handleScroll s now).1.isVisible = true ∧
      (handleScroll s now).1.lastScrollTime = now ∧
      (handleScroll s now).1.pendingHideAt = some (now + hideDelay) := by
    rw [handleScroll_eq]
    split_ifs <;> exact ⟨rfl, rfl, rfl⟩
  obtain ⟨hv, hl, hp⟩ := hs
  refine ⟨hv, hp, ?_⟩
  rw [fireStep_isVisible, hl, hv]
  rw [show hideDelay = 1200 from rfl]
  by_cases h2 : 1200 ≤ tf - now
  · rw [if_pos h2]
    constructor
    · intro _; omega
    · intro _; rfl
  · rw [if_neg h2]
    constructor
    · intro h; exact absurd h (by simp)
    · intro h; omega

/-- `fireStep` never touches the recompute timestamp. -/
theorem fireStep_lastMonthUpdateTime (s : SvcState) (tf : Nat) :
    (fireStep s tf).lastMonthUpdateTime = s.lastMonthUpdateTime := by
  unfold fireStep
  dsimp only
  split_ifs <;> rfl

/-- Throttle chain: along any valid trace the recompute timestamps,
prefixed by the state's previous recompute timestamp, form a chain with
gaps of at least `monthUpdateThrottle`. -/
theorem recomputes_chain :
    ∀ (es : List Ev) (s : SvcState) (t : Nat),
      validB s t es = true → s.lastMonthUpdateTime ≤ t →
      List.Chain (fun a b => a + monthUpdateThrottle ≤ b)
        s.lastMonthUpdateTime (recomputes s es) := by
  intro es
  induction es with
  | nil =>
    intro s t _ _
    exact List.Chain.nil
  | cons e es ih =>
    intro s t hv hle
    cases e with
    | scroll ts =>
      simp only [validB, Bool.and_eq_true, decide_eq_true_eq] at hv
      obtain ⟨hts, hv⟩ := hv
      by_cases hth : monthUpdateThrottle ≤ ts - s.lastMonthUpdateTime
      · have hstep : handleScroll s ts =
            ({ isVisible := true, lastScrollTime := ts,
               lastMonthUpdateTime := ts,
               pendingHideAt := some (ts + hideDelay) }, true) := by
          rw [handleScroll_eq, if_pos hth]
        rw [hstep] at hv
        have hrec : recomputes s (Ev.scroll ts :: es) =
            ts :: recomputes
              { isVisible := true, lastScrollTime := ts,
                lastMonthUpdateTime := ts,
                pendingHideAt := some (ts + hideDelay) } es := by
          simp [recomputes, stepEv, hstep, Ev.time]
        rw [hrec]
        exact List.Chain.cons (by omega) (ih _ ts hv (Nat.le_refl ts))
      · have hstep : handleScroll s ts =
            ({ isVisible := true, lastScrollTime := ts,
               lastMonthUpdateTime := s.lastMonthUpdateTime,
               pendingHideAt := some (ts + hideDelay) }, false) := by
          rw [handleScroll_eq, if_neg hth]
        rw [hstep] at hv
        have hrec : recomputes s (Ev.scroll ts :: es) =
            recomputes
              { isVisible := true, lastScrollTime := ts,
                lastMonthUpdateTime := s.lastMonthUpdateTime,
                pendingHideAt := some (ts + hideDelay) } es := by
          simp [recomputes, stepEv, hstep, Ev.time]
        rw [hrec]
        exact ih _ ts hv (by show s.lastMonthUpdateTime ≤ ts; omega)
    | fire tf =>
      simp only [validB, Bool.and_eq_true, decide_eq_true_eq] at hv
      have htf : t ≤ tf := by tauto
      have hvf : validB (fireStep s tf) tf es = true := by tauto
      have hrec : recomputes s (Ev.fire tf :: es) =
          recomputes (fireStep s tf) es := by
        simp [recomputes, stepEv]
      rw [hrec]
      have hle2 : (fireStep s tf).lastMonthUpdateTime ≤ tf := by
        rw [fireStep_lastMonthUpdateTime]
        omega
      have hch := ih (fireStep s tf) tf hvf hle2
      rw [fireStep_lastMonthUpdateTime] at hch
      exact hch

/-- The timing invariant survives advancing the clock. -/
theorem timingInv_mono (s : SvcState) (t t2 : Nat)
    (h : TimingInv s t) (hle : t ≤ t2) : TimingInv s t2 := by
  obtain ⟨h1, h2, h3⟩ := h
  refine ⟨h1, by omega, ?_⟩
  intro hh
  rcases h3 hh with h4 | h4
  · exact Or.inl (by omega)
  · exact Or.inr h4

/-- The timing invariant is preserved by a scroll-activity step. -/
theorem timingInv_scroll (s : SvcState) (t now : Nat)
    (h : TimingInv s t) (hle : t ≤ now) :
    TimingInv (handleScroll s now).1 now := by
  obtain ⟨h1, h2, h3⟩ := h
  rw [handleScroll_eq]
  by_cases hth : monthUpdateThrottle ≤ now - s.lastMonthUpdateTime
  · rw [if_pos hth]
    exact ⟨Nat.le_refl now, Nat.le_refl now, fun hh => by simp at hh⟩
  · rw [if_neg hth]
    exact ⟨by show s.lastMonthUpdateTime ≤ now; omega, Nat.le_refl now,
      fun hh => by simp at hh⟩

/-- The timing invariant is preserved by a hide-timer firing. -/
theorem timingInv_fire (s : SvcState) (t now : Nat)
    (h : TimingInv s t) (hle : t ≤ now) :
    TimingInv (fireStep s now) now := by
  obtain ⟨h1, h2, h3⟩ := h
  unfold fireStep
  dsimp only
  by_cases hg : hideDelay ≤ now - s.lastScrollTime
  · rw [if_pos hg]
    exact ⟨h1, by show s.lastScrollTime ≤ now; omega,
      fun _ => Or.inl (by show s.lastMonthUpdateTime + hideDelay ≤ now; omega)⟩
  · rw [if_neg hg]
    refine ⟨h1, by show s.lastScrollTime ≤ now; omega, ?_⟩
    intro hh
    rcases h3 hh with h4 | h4
    · exact Or.inl (by show s.lastMonthUpdateTime + hideDelay ≤ now; omega)
    · exact Or.inr h4

/-- The timing invariant holds after running any valid trace, at the
trace's final clock value. -/
theorem timingInv_run :
    ∀ (es : List Ev) (s : SvcState) (t : Nat),
      validB s t es = true → TimingInv s t →
      TimingInv (runTrace s es) (endTime t es) := by
  intro es
  induction es with
  | nil =>
    intro s t _ h
    exact h
  | cons e es ih =>
    intro s t hv h
    cases e with
    | scroll ts =>
      simp only [validB, Bool.and_eq_true, decide_eq_true_eq] at hv
      simp only [runTrace, stepEv, endTime, Ev.time]
      exact ih _ ts hv.2 (timingInv_scroll s t ts h hv.1)
    | fire tf =>
      simp only [validB, Bool.and_eq_true, decide_eq_true_eq] at hv
      have htf : t ≤ tf := by tauto
      have hvf : validB (fireStep s tf) tf es = true := by tauto
      simp only [runTrace, stepEv, endTime, Ev.time]
      exact ih _ tf hvf (timingInv_fire s t tf h htf)

/-- Appending a final scroll event to a valid trace: the prefix is valid
and the new event's timestamp is at or after the prefix's final clock. -/
theorem validB_append_scroll :
    ∀ (es : List Ev) (s : SvcState) (t ts : Nat),
      validB s t (es ++ [Ev.scroll ts]) = true →
      validB s t es = true ∧ endTime t es ≤ ts := by
  intro es
  induction es with
  | nil =>
    intro s t ts hv
    simp only [List.nil_append, validB, Bool.and_eq_true,
      decide_eq_true_eq] at hv
    exact ⟨rfl, hv.1⟩
  | cons e es ih =>
    intro s t ts hv
    cases e with
    | scroll t1 =>
      simp only [List.cons_append, validB, Bool.and_eq_true,
        decide_eq_true_eq] at hv ⊢
      obtain ⟨h1, h2⟩ := hv
      refine ⟨⟨h1, (ih _ _ _ h2).1⟩, ?_⟩
      simpa [endTime, Ev.time] using (ih _ _ _ h2).2
    | fire t1 =>
      simp only [List.cons_append, validB, Bool.and_eq_true,
        decide_eq_true_eq] at hv ⊢
      have h1 : t ≤ t1 := by tauto
      have hm : (match s.pendingHideAt with
          | some t0 => decide (t0 ≤ t1)
          | none => false) = true := by tauto
      have h2 : validB (fireStep s t1) t1 (es ++ [Ev.scroll ts]) = true := by
        tauto
      refine ⟨⟨⟨h1, hm⟩, (ih _ _ _ h2).1⟩, ?_⟩
      simpa [endTime, Ev.time] using (ih _ _ _ h2).2

/-- C5.  Throttle guarantee: (a) along every valid event trace from the
freshly constructed service, consecutive `updateMonthYear` runs are at
least `monthUpdateThrottle` apart — the label is recomputed at most once
per minimum interval; (b) the first scroll signal of a burst — a signal
arriving while the popup is hidden — always recomputes the label
immediately (for any clock at or past the throttle interval, which every
real `Date.now()` reading satisfies): being hidden implies the full
`hideDelay` quiet period has already elapsed since the last recompute, so
the throttle check can never suppress the burst's first recompute. -/
theorem throttleGuarantee :
    (∀ es : List Ev, validB initState 0 es = true →
      List.Chain (fun a b => a + monthUpdateThrottle ≤ b) 0
        (recomputes initState es)) ∧
    (∀ (es : List Ev) (ts : Nat),
      validB initState 0 (es ++ [Ev.scroll ts]) = true →
      (runTrace initState es).isVisible = false →
      monthUpdateThrottle ≤ ts →
      (handleScroll (runTrace initState es) ts).2 = true) := by
  constructor
  · intro es hv
    exact recomputes_chain es initState 0 hv (Nat.le_refl 0)
  · intro es ts hv hhid hts
    obtain ⟨hv1, hend⟩ := validB_append_scroll es initState 0 ts hv
    have hinv0 : TimingInv initState 0 :=
      ⟨Nat.le_refl 0, Nat.le_refl 0, fun _ => Or.inr rfl⟩
    have hinv := timingInv_run es initState 0 hv1 hinv0
    have hinv2 : TimingInv (runTrace initState es) ts :=
      timingInv_mono _ _ _ hinv hend
    rw [handleScroll_eq]
    have hpass : monthUpdateThrottle ≤
        ts - (runTrace initState es).lastMonthUpdateTime := by
      rcases hinv2.2.2 hhid with h | h
      · rw [show hideDelay = 1200 from rfl] at h
        rw [show monthUpdateThrottle = 50 from rfl]
        omega
      · rw [h]
        simpa using hts
    rw [if_pos hpass]

/-- Witness for `throttleGuarantee`: a two-scroll burst at clock values
60 and 80 (gap 20, below the 50-unit throttle) recomputes only at 60, and
the first scroll of the initial (hidden) state recomputes. -/
theorem throttleGuarantee_witness :
    List.Chain (fun a b => a + monthUpdateThrottle ≤ b) 0
      (recomputes initState [Ev.scroll 60, Ev.scroll 80]) ∧
    (handleScroll (runTrace initState []) 60).2 = true :=
  ⟨throttleGuarantee.1 [Ev.scroll 60, Ev.scroll 80] (by decide),
   throttleGuarantee.2 [] 60 (by decide) (by decide) (by decide)⟩

/- ### Parse-failure recovery (C7, C10) -/

/-- C7 counterexample: `setInitialDate` does not resolve the label to the
empty string on malformed input — starting from a state whose label is
"Feb 2024", feeding the unparsable text "not-a-date" leaves the label at
"Feb 2024", not at the empty string the claim requires of every parsing
operation. -/
theorem parseFailureRecovery_cex :
    extractMonthYearFromText (String.toList "not-a-date") = none ∧
    (setInitialDate
        { isVisible := false, monthYear := "Feb 2024", top := 0, left := 0 }
        (String.toList "not-a-date")).monthYear = "Feb 2024" ∧
    ("Feb 2024" : String) ≠ "" := by
  refine ⟨by decide, by decide, by decide⟩

/-- C7 amended.  Parse-failure recovery: malformed or absent date text is
absorbed locally and never propagated as an error — every path is total.
The scroll-driven recompute (`updateMonthYear`) resolves the label to the
empty string whenever the geometry is unavailable, the row cache is
empty, no row is at or below the edge, or the located row's date text is
absent or unparsable.  `setInitialDate`, however, absorbs a parse failure
by leaving the state unchanged: the label keeps its previous value, which
need not be empty. -/
theorem parseFailureRecovery :
    (∀ rows : List RowData, updateMonthYearLabel false rows = "") ∧
    updateMonthYearLabel true [] = "" ∧
    (∀ rows : List RowData,
      binarySearchVisibleRow (rows.map RowData.offset) = none →
      updateMonthYearLabel true rows = "") ∧
    (∀ (rows : List RowData) (i : Nat),
      binarySearchVisibleRow (rows.map RowData.offset) = some i →
      extractMonthYearFromRow (rows.getD i default) = none →
      updateMonthYearLabel true rows = "") ∧
    (∀ (st : PopupState) (t : List Char),
      extractMonthYearFromText t = none → setInitialDate st t = st) := by
  refine ⟨fun rows => rfl, rfl, ?_, ?_, ?_⟩
  · intro rows hb
    cases rows with
    | nil => rfl
    | cons r rs =>
      rw [List.map_cons] at hb
      unfold updateMonthYearLabel
      simp [hb]
  · intro rows i hb hext
    cases rows with
    | nil =>
      rw [show binarySearchVisibleRow
          (List.map RowData.offset ([] : List RowData)) = none from rfl] at hb
      simp at hb
    | cons r rs =>
      rw [List.map_cons] at hb
      simp only [List.getD_eq_getElem?_getD] at hext
      unfold updateMonthYearLabel
      simp [hb, hext]
  · intro st t h
    simp [setInitialDate, h]

/-- Witness for `parseFailureRecovery`: a single visible row whose date
text "x" is unparsable yields the empty label, and `setInitialDate` fed
"x" on a state labelled "Jan 2020" returns the state unchanged. -/
theorem parseFailureRecovery_witness :
    updateMonthYearLabel true [⟨0, some ['x']⟩] = "" ∧
    setInitialDate
        { isVisible := true, monthYear := "Jan 2020", top := 3, left := 4 }
        ['x'] =
      { isVisible := true, monthYear := "Jan 2020", top := 3, left := 4 } :=
  ⟨parseFailureRecovery.2.2.2.1 [⟨0, some ['x']⟩] 0 (by decide) (by decide),
   parseFailureRecovery.2.2.2.2 _ ['x'] (by decide)⟩

/-- C10.  `setInitialDate` is a no-op on unparsable input: when the text
fails to parse the whole state — in particular the `monthYear` label —
keeps its previous value (it is not cleared to the empty string); and on
every input, parsable or not, `setInitialDate` leaves `isVisible`, `top`
and `left` untouched. -/
theorem setInitialDate_noop :
    (∀ (st : PopupState) (t : List Char),
      extractMonthYearFromText t = none → setInitialDate st t = st) ∧
    (∀ (st : PopupState) (t : List Char),
      (setInitialDate st t).isVisible = st.isVisible ∧
      (setInitialDate st t).top = st.top ∧
      (setInitialDate st t).left = st.left) := by
  constructor
  · intro st t h
    simp [setInitialDate, h]
  · intro st t
    cases hm : extractMonthYearFromText t with
    | none => simp [setInitialDate, hm]
    | some m => simp [setInitialDate, hm]

/-- Witness for `setInitialDate_noop`: the unparsable text "x" on a
populated state, and the parsable "2024-02-05" on the same state (which
changes only the label). -/
theorem setInitialDate_noop_witness :
    setInitialDate
        { isVisible := false, monthYear := "Mar 2021", top := 7, left := 8 }
        ['x'] =
      { isVisible := false, monthYear := "Mar 2021", top := 7, left := 8 } ∧
    (setInitialDate
        { isVisible := false, monthYear := "Mar 2021", top := 7, left := 8 }
        (String.toList "2024-02-05")).isVisible = false :=
  ⟨setInitialDate_noop.1 _ ['x'] (by decide),
   (setInitialDate_noop.2
      { isVisible := false, monthYear := "Mar 2021", top := 7, left := 8 }
      (String.toList "2024-02-05")).1⟩
